import Mathlib

/-!
Verification development for a two-channel oscilloscope host application.

The definitions below are shallow embeddings of the C++ source:
machine integers become Nat/Int (values stay far below 2^31 in the
modelled paths), `double` arithmetic on exactly representable dyadic
values becomes exact arithmetic over the rationals, and code whose
C++ semantics would be undefined (out-of-bounds element access)
returns Option.
-/

set_option maxRecDepth 16000

namespace Scope

/-! ### DDS planner arithmetic (MainWindow.cpp) -/

/-- Fuel-driven halving count; with fuel at least n it computes the bit
length of n (structural recursion so that the kernel can evaluate it). -/
def bitCountAux (fuel n : Nat) : Nat :=
  match fuel with
  | 0 => 0
  | f + 1 => if n = 0 then 0 else bitCountAux f (n / 2) + 1

/-- Number of iterations of the C++ loop `while (n != 0) { n >>= 1; count++ }`
in `MainWindow::nextPowerOf2`: the bit length of `n`. -/
def bitCount (n : Nat) : Nat := bitCountAux n n

theorem bitCountAux_eq (f : Nat) : ∀ g n, n ≤ f → n ≤ g → bitCountAux f n = bitCountAux g n := by
  induction f with
  | zero =>
    intro g n hf hg
    have hn : n = 0 := by omega
    subst hn
    cases g <;> simp [bitCountAux]
  | succ f ih =>
    intro g n hf hg
    by_cases hn : n = 0
    · subst hn
      cases g <;> simp [bitCountAux]
    · have hg1 : 1 ≤ g := by omega
      obtain ⟨g₁, rfl⟩ : ∃ g₁, g = g₁ + 1 := ⟨g - 1, by omega⟩
      have hlt : n / 2 < n := Nat.div_lt_self (by omega) (by norm_num)
      simp only [bitCountAux, hn, if_false]
      have := ih g₁ (n / 2) (by omega) (by omega)
      omega

/-- Embedding of `MainWindow::nextPowerOf2` (MainWindow.cpp:2709):
returns 1 for 0, otherwise `1 << (bit length of n)`. -/
def nextPowerOf2 (n : Nat) : Nat :=
  if n = 0 then 1 else 2 ^ bitCount n

/-- C++ `std::round`: round half away from zero, as an integer result. -/
def cppRound (q : ℚ) : ℤ :=
  if 0 ≤ q then ⌊q + 1 / 2⌋ else -⌊-q + 1 / 2⌋

/-- Embedding of `MainWindow::get_phase_step` (MainWindow.cpp:2701):
floor of `frequency * 2^16 / fclock`, pushed up to a power of two,
with a final guard that the result is at least 1. -/
def get_phase_step (frequency fclock : Nat) : Nat :=
  let phase_step_temp : ℚ := (frequency * 2 ^ 16 : ℚ) / fclock
  let phase_step_int : Nat := (⌊phase_step_temp⌋).toNat
  max (nextPowerOf2 phase_step_int) 1

theorem bitCount_zero : bitCount 0 = 0 := rfl

theorem bitCount_succ (n : Nat) (h : n ≠ 0) : bitCount n = bitCount (n / 2) + 1 := by
  obtain ⟨m, rfl⟩ : ∃ m, n = m + 1 := ⟨n - 1, by omega⟩
  show bitCountAux (m + 1) (m + 1) = bitCount ((m + 1) / 2) + 1
  simp only [bitCountAux]
  rw [if_neg (by omega)]
  have := bitCountAux_eq m ((m + 1) / 2) ((m + 1) / 2) (by omega) le_rfl
  unfold bitCount
  omega

/-- The bit length gives a power of two strictly above n. -/
theorem lt_two_pow_bitCount (n : Nat) : n < 2 ^ bitCount n := by
  induction n using Nat.strong_induction_on with
  | _ n ih =>
    by_cases hne : n = 0
    · subst hne
      simp [bitCount_zero]
    · rw [bitCount_succ n hne]
      have hdiv : n / 2 < n := Nat.div_lt_self (by omega) (by norm_num)
      have := ih (n / 2) hdiv
      have h3 : n < 2 * (n / 2) + 2 := by omega
      calc n < 2 * (n / 2) + 2 := h3
        _ = 2 * (n / 2 + 1) := by ring
        _ ≤ 2 * 2 ^ bitCount (n / 2) := by omega
        _ = 2 ^ (bitCount (n / 2) + 1) := by ring

/-- For positive n the bit-length power of two is at most 2n. -/
theorem two_pow_bitCount_le (n : Nat) (h : 1 ≤ n) : 2 ^ bitCount n ≤ 2 * n := by
  induction n using Nat.strong_induction_on with
  | _ n ih =>
    rcases Nat.lt_or_ge n 2 with h2 | h2
    · have hn1 : n = 1 := by omega
      subst hn1
      rw [bitCount_succ 1 (by norm_num)]
      norm_num [bitCount_zero]
    · have hne : n ≠ 0 := by omega
      rw [bitCount_succ n hne]
      have hdiv : n / 2 < n := Nat.div_lt_self (by omega) (by norm_num)
      have hd1 : 1 ≤ n / 2 := by omega
      have := ih (n / 2) hdiv hd1
      calc 2 ^ (bitCount (n / 2) + 1) = 2 * 2 ^ bitCount (n / 2) := by ring
      _ ≤ 2 * (2 * (n / 2)) := by omega
      _ ≤ 2 * n := by omega

theorem nextPowerOf2_pos (n : Nat) : 0 < nextPowerOf2 n := by
  unfold nextPowerOf2
  split <;> positivity

/-- nextPowerOf2 n is always a power of two. -/
theorem nextPowerOf2_isPow (n : Nat) : ∃ k, nextPowerOf2 n = 2 ^ k := by
  unfold nextPowerOf2
  split
  · exact ⟨0, rfl⟩
  · exact ⟨bitCount n, rfl⟩

/-- For positive n, nextPowerOf2 n is strictly greater than n. -/
theorem lt_nextPowerOf2 (n : Nat) (h : 1 ≤ n) : n < nextPowerOf2 n := by
  unfold nextPowerOf2
  have hne : n ≠ 0 := by omega
  simp only [hne, if_false]
  exact lt_two_pow_bitCount n

/-- Minimality: nextPowerOf2 n is the least power of two strictly above n. -/
theorem nextPowerOf2_min (n : Nat) (h : 1 ≤ n) (k : Nat) (hk : n < 2 ^ k) :
    nextPowerOf2 n ≤ 2 ^ k := by
  unfold nextPowerOf2
  have hne : n ≠ 0 := by omega
  simp only [hne, if_false]
  have h1 : 2 ^ bitCount n ≤ 2 * n := two_pow_bitCount_le n h
  have h2 : 2 * n < 2 * 2 ^ k := by omega
  have h3 : 2 ^ bitCount n < 2 ^ (k + 1) := by
    calc 2 ^ bitCount n ≤ 2 * n := h1
    _ < 2 * 2 ^ k := h2
    _ = 2 ^ (k + 1) := by ring
  have h4 : bitCount n < k + 1 := by
    exact (Nat.pow_lt_pow_iff_right (by norm_num)).mp h3
  exact Nat.pow_le_pow_right (by norm_num) (by omega)

/-! ### List helper lemmas for the DDS table fill -/

theorem getElem?_set_cases (l : List Nat) (i j v : Nat) :
    (l.set i v)[j]? = l[j]? ∨ ((l.set i v)[j]? = some v ∧ i = j) := by
  induction l generalizing i j with
  | nil => simp
  | cons h t ih =>
    cases i with
    | zero =>
      cases j with
      | zero => simp
      | succ j => simp
    | succ i =>
      cases j with
      | zero => simp
      | succ j => simpa using ih i j

theorem getElem?_set_ne2 (l : List Nat) {i j : Nat} (h : i ≠ j) (v : Nat) :
    (l.set i v)[j]? = l[j]? := by
  rcases getElem?_set_cases l i j v with h1 | ⟨_, h2⟩
  · exact h1
  · exact absurd h2 h

theorem getD_mem (l : List Nat) (i : Nat) (h : i < l.length) : l.getD i 0 ∈ l := by
  induction l generalizing i with
  | nil => simp at h
  | cons x t ih =>
    cases i with
    | zero => simp [List.getD]
    | succ i =>
      have := ih i (by simpa using Nat.lt_of_succ_lt_succ h)
      simp only [List.getD] at *
      simpa using Or.inr this

/-! ### DDS table fill: MainWindow::GetCount_GetIndex (MainWindow.cpp:2719) -/

/-- Derived master index of one accumulator step: the C++
`dds_index = phase_accumulator >> 8; if (dds_index >= 256) dds_index = 255;`. -/
def ddsIndexOf (acc : Nat) : Nat := min (acc / 256) 255

/-- Value the loop body stores: `DDS_Waveform[idx]` when in range, else the
last waveform entry, else 0 for an empty waveform (MainWindow.cpp:2740). -/
def ddsMasterValue (master : List Nat) (idx : Nat) : Nat :=
  if master.length = 0 then 0
  else if idx < master.length then master.getD idx 0
  else master.getD (master.length - 1) 0

/-- One-for-one rendering of the C++ loop
`while (dds_count < 512 && unique_indices < 256 && dds_count < table_size)`
(MainWindow.cpp:2736): `seen` is the list of distinct indices visited, so
`seen.length` is the C++ `unique_indices` counter. Structural fuel stands in
for the loop, and fuel 512 is shown below to be enough. -/
def ddsLoopAux (master : List Nat) (step : Nat) :
    Nat → List Nat → Nat → Nat → List Nat → Nat → List Nat × Nat × Nat
  | 0, table, _, cnt, _, lastIdx => (table, cnt, lastIdx)
  | fuel + 1, table, acc, cnt, seen, lastIdx =>
    if cnt < 512 ∧ seen.length < 256 ∧ cnt < table.length then
      let acc2 := acc + step
      let idx := ddsIndexOf acc2
      let table2 := table.set cnt (ddsMasterValue master idx)
      let seen2 := if idx ∈ seen then seen else idx :: seen
      ddsLoopAux master step fuel table2 acc2 (cnt + 1) seen2 idx
    else (table, cnt, lastIdx)

/-- Body of the C++ pad loop `for (int i = dds_count; i < 512 && i < table_size; ++i)`
(MainWindow.cpp:2754): overwrite positions `cnt ≤ i < 512` with `v`. -/
def padFillAux (v cnt : Nat) : Nat → List Nat → List Nat
  | _, [] => []
  | i, x :: xs => (if cnt ≤ i ∧ i < 512 then v else x) :: padFillAux v cnt (i + 1) xs

def padFill (table : List Nat) (cnt v : Nat) : List Nat := padFillAux v cnt 0 table

/-- The pad phase. When it runs with a non-empty waveform and
`last_index ≥ DDS_Waveform.size()`, the C++ `DDS_Waveform[last_index]`
read is out of bounds (undefined behavior), modelled as `none`. -/
def ddsPad (master table : List Nat) (cnt lastIdx : Nat) : Option (List Nat) :=
  if cnt < 512 ∧ cnt < table.length then
    if master.length = 0 then some (padFill table cnt 0)
    else if lastIdx < master.length then some (padFill table cnt (master.getD lastIdx 0))
    else none
  else some table

/-- Assemble the pad result with the final count. -/
def ddsFinish (master : List Nat) (r : List Nat × Nat × Nat) : Option (List Nat × Nat) :=
  (ddsPad master r.1 r.2.1 r.2.2).map fun t2 => (t2, r.2.1)

/-- MainWindow::GetCount_GetIndex with explicit loop fuel, at the call-site
arguments `phase_accumulator = 0, dds_index = 0, dds_count = 0`: seed
`DDS_Table[0] = DDS_Waveform[0]` (or 0), run the fill loop, pad, and
return the final table together with the C++ `intermediate_dds_count`. -/
def GetCount_GetIndexFuel (fuel : Nat) (master table : List Nat) (step : Nat) :
    Option (List Nat × Nat) :=
  ddsFinish master (ddsLoopAux master step fuel
    (table.set 0 (if 0 < master.length then master.getD 0 0 else 0)) 0 1 [0] 0)

/-- MainWindow::GetCount_GetIndex; fuel 512 always outlasts the loop, whose
counter starts at 1, grows by 1 per iteration, and is capped by 512. -/
def GetCount_GetIndex (master table : List Nat) (step : Nat) : Option (List Nat × Nat) :=
  GetCount_GetIndexFuel 512 master table step

theorem ddsIndexOf_le (acc : Nat) : ddsIndexOf acc ≤ 255 := by
  unfold ddsIndexOf
  omega

theorem ddsMasterValue_mem (master : List Nat) (idx : Nat) (h : master.length ≠ 0) :
    ddsMasterValue master idx ∈ master := by
  unfold ddsMasterValue
  rw [if_neg h]
  split
  · exact getD_mem master idx (by assumption)
  · exact getD_mem master (master.length - 1) (by omega)

/-- The loop result is fuel-independent once the fuel covers the remaining
iterations (cnt can rise to at most 512). -/
theorem ddsLoopAux_fuel (master : List Nat) (step : Nat) :
    ∀ f g table acc cnt seen lastIdx, 512 - cnt ≤ f → 512 - cnt ≤ g →
    ddsLoopAux master step f table acc cnt seen lastIdx =
      ddsLoopAux master step g table acc cnt seen lastIdx := by
  intro f
  induction f with
  | zero =>
    intro g table acc cnt seen lastIdx hf hg
    have h512 : 512 ≤ cnt := by omega
    cases g with
    | zero => rfl
    | succ g =>
      show ddsLoopAux master step 0 table acc cnt seen lastIdx = _
      unfold ddsLoopAux
      rw [if_neg (by omega)]
  | succ f ih =>
    intro g table acc cnt seen lastIdx hf hg
    by_cases hcond : cnt < 512 ∧ seen.length < 256 ∧ cnt < table.length
    · obtain ⟨g₁, rfl⟩ : ∃ g₁, g = g₁ + 1 := ⟨g - 1, by omega⟩
      unfold ddsLoopAux
      rw [if_pos hcond, if_pos hcond]
      exact ih g₁ _ _ (cnt + 1) _ _ (by omega) (by omega)
    · cases g with
      | zero =>
        unfold ddsLoopAux
        rw [if_neg hcond]
      | succ g =>
        unfold ddsLoopAux
        rw [if_neg hcond, if_neg hcond]

/-- Invariant of the fill loop: the table keeps its length, every entry is
either untouched or a waveform value, entries at index 512 and beyond are
untouched, the count never passes 512, and the last index stays clamped. -/
theorem ddsLoopAux_spec (master : List Nat) (step : Nat) (hm : master.length ≠ 0) :
    ∀ fuel table acc cnt seen lastIdx, lastIdx ≤ 255 → cnt ≤ 512 →
    (ddsLoopAux master step fuel table acc cnt seen lastIdx).1.length = table.length ∧
    (ddsLoopAux master step fuel table acc cnt seen lastIdx).2.2 ≤ 255 ∧
    (ddsLoopAux master step fuel table acc cnt seen lastIdx).2.1 ≤ 512 ∧
    cnt ≤ (ddsLoopAux master step fuel table acc cnt seen lastIdx).2.1 ∧
    (∀ (j w : Nat), (ddsLoopAux master step fuel table acc cnt seen lastIdx).1[j]? = some w →
      table[j]? = some w ∨ w ∈ master) ∧
    (∀ (j : Nat), 512 ≤ j →
      (ddsLoopAux master step fuel table acc cnt seen lastIdx).1[j]? = table[j]?) := by
  intro fuel
  induction fuel with
  | zero =>
    intro table acc cnt seen lastIdx hlast hcnt
    exact ⟨rfl, hlast, hcnt, le_rfl, by intro j w h; exact Or.inl h, by intro j h; rfl⟩
  | succ fuel ih =>
    intro table acc cnt seen lastIdx hlast hcnt
    by_cases hcond : cnt < 512 ∧ seen.length < 256 ∧ cnt < table.length
    · have hunf : ddsLoopAux master step (fuel + 1) table acc cnt seen lastIdx =
        ddsLoopAux master step fuel
          (table.set cnt (ddsMasterValue master (ddsIndexOf (acc + step))))
          (acc + step) (cnt + 1)
          (if ddsIndexOf (acc + step) ∈ seen then seen else ddsIndexOf (acc + step) :: seen)
          (ddsIndexOf (acc + step)) := by
        conv_lhs => rw [ddsLoopAux]
        rw [if_pos hcond]
      rw [hunf]
      have hidx : ddsIndexOf (acc + step) ≤ 255 := ddsIndexOf_le _
      obtain ⟨ih1, ih2, ih3, ih4, ih5, ih6⟩ := ih
        (table.set cnt (ddsMasterValue master (ddsIndexOf (acc + step)))) (acc + step)
        (cnt + 1)
        (if ddsIndexOf (acc + step) ∈ seen then seen else ddsIndexOf (acc + step) :: seen)
        (ddsIndexOf (acc + step)) hidx (by omega)
      refine ⟨by rw [ih1]; simp, ih2, ih3, by omega, ?_, ?_⟩
      · intro j w h
        rcases ih5 j w h with h1 | h1
        · rcases getElem?_set_cases table cnt j (ddsMasterValue master (ddsIndexOf (acc + step)))
            with h2 | ⟨h2, _⟩
          · exact Or.inl (h2 ▸ h1)
          · rw [h1] at h2
            have hw : w = ddsMasterValue master (ddsIndexOf (acc + step)) := by
              exact Option.some_injective _ h2
            exact Or.inr (hw ▸ ddsMasterValue_mem master _ hm)
        · exact Or.inr h1
      · intro j hj
        rw [ih6 j hj]
        exact getElem?_set_ne2 table (by omega) _
    · unfold ddsLoopAux
      rw [if_neg hcond]
      exact ⟨rfl, hlast, hcnt, le_rfl, by intro j w h; exact Or.inl h, by intro j h; rfl⟩

theorem padFillAux_length (v cnt : Nat) : ∀ l i, (padFillAux v cnt i l).length = l.length := by
  intro l
  induction l with
  | nil => intro i; rfl
  | cons x xs ih =>
    intro i
    simp only [padFillAux, List.length_cons, ih]

theorem padFillAux_cases (v cnt : Nat) :
    ∀ (l : List Nat) (i j w : Nat),
      (padFillAux v cnt i l)[j]? = some w → l[j]? = some w ∨ w = v := by
  intro l
  induction l with
  | nil => intro i j w h; simp [padFillAux] at h
  | cons x xs ih =>
    intro i j w h
    cases j with
    | zero =>
      simp only [padFillAux, List.getElem?_cons_zero] at h ⊢
      split at h
      · exact Or.inr (Option.some_injective _ h).symm
      · exact Or.inl h
    | succ j =>
      simp only [padFillAux, List.getElem?_cons_succ] at h ⊢
      exact ih (i + 1) j w h

theorem padFillAux_high (v cnt : Nat) :
    ∀ (l : List Nat) (i j : Nat), 512 ≤ i + j → (padFillAux v cnt i l)[j]? = l[j]? := by
  intro l
  induction l with
  | nil => intro i j _; rfl
  | cons x xs ih =>
    intro i j hj
    cases j with
    | zero =>
      simp only [padFillAux, List.getElem?_cons_zero]
      rw [if_neg (by omega)]
    | succ j =>
      simp only [padFillAux, List.getElem?_cons_succ]
      exact ih (i + 1) j (by omega)

/-- When the final loop index is inside the waveform, the pad phase succeeds
and only writes waveform values below index 512. -/
theorem ddsPad_spec (master table : List Nat) (cnt lastIdx : Nat)
    (hm : master.length ≠ 0) (hlt : lastIdx < master.length) :
    ∃ t2, ddsPad master table cnt lastIdx = some t2 ∧ t2.length = table.length ∧
      (∀ (j w : Nat), t2[j]? = some w → table[j]? = some w ∨ w ∈ master) ∧
      (∀ (j : Nat), 512 ≤ j → t2[j]? = table[j]?) := by
  unfold ddsPad
  by_cases hc : cnt < 512 ∧ cnt < table.length
  · rw [if_pos hc, if_neg hm, if_pos hlt]
    refine ⟨padFill table cnt (master.getD lastIdx 0), rfl, padFillAux_length _ _ _ _, ?_, ?_⟩
    · intro j w h
      rcases padFillAux_cases _ _ table 0 j w h with h1 | h1
      · exact Or.inl h1
      · exact Or.inr (h1 ▸ getD_mem master lastIdx hlt)
    · intro j hj
      exact padFillAux_high _ _ table 0 j (by omega)
  · rw [if_neg hc]
    exact ⟨table, rfl, rfl, by intro j w h; exact Or.inl h, by intro j h; rfl⟩

/-- Joint safety specification of the table fill for a full-size master
waveform (at least 256 entries, as guaranteed by MainWindow::setFrequency):
the fill succeeds, the count stays in [1, 512], the table keeps its length,
every table entry is an original entry or a waveform value, and entries from
index 512 on are untouched. -/
theorem GetCount_GetIndex_spec (master table : List Nat) (step : Nat)
    (hm : 256 ≤ master.length) :
    ∃ t cnt, GetCount_GetIndex master table step = some (t, cnt) ∧
      1 ≤ cnt ∧ cnt ≤ 512 ∧ t.length = table.length ∧
      (∀ (j w : Nat), t[j]? = some w → table[j]? = some w ∨ w ∈ master) ∧
      (∀ (j : Nat), 512 ≤ j → t[j]? = table[j]?) := by
  have hm0 : master.length ≠ 0 := by omega
  unfold GetCount_GetIndex GetCount_GetIndexFuel
  simp only [if_pos (by omega : 0 < master.length)]
  obtain ⟨l1, l2, l3, l4, l5, l6⟩ := ddsLoopAux_spec master step hm0 512
    (table.set 0 (master.getD 0 0)) 0 1 [0] 0 (by omega) (by omega)
  set r := ddsLoopAux master step 512 (table.set 0 (master.getD 0 0)) 0 1 [0] 0 with hr
  obtain ⟨t2, hp, hp1, hp2, hp3⟩ := ddsPad_spec master r.1 r.2.1 r.2.2 hm0 (by omega)
  refine ⟨t2, r.2.1, ?_, by omega, l3, ?_, ?_, ?_⟩
  · unfold ddsFinish
    rw [hp]
    rfl
  · rw [hp1, l1]
    simp
  · intro j w h
    rcases hp2 j w h with h1 | h1
    · rcases l5 j w h1 with h2 | h2
      · rcases getElem?_set_cases table 0 j (master.getD 0 0) with h3 | ⟨h3, _⟩
        · exact Or.inl (h3 ▸ h2)
        · rw [h2] at h3
          have hw : w = master.getD 0 0 := Option.some_injective _ h3
          exact Or.inr (hw ▸ getD_mem master 0 (by omega))
      · exact Or.inr h2
    · exact Or.inr h1
  · intro j hj
    rw [hp3 j hj, l6 j hj]
    exact getElem?_set_ne2 table (by omega) _

/-- Fuel irrelevance: any fuel of at least 511 computes the same result,
witnessing termination of the C++ fill loop. -/
theorem GetCount_GetIndexFuel_stable (master table : List Nat) (step f : Nat)
    (hf : 511 ≤ f) :
    GetCount_GetIndexFuel f master table step = GetCount_GetIndex master table step := by
  unfold GetCount_GetIndex GetCount_GetIndexFuel
  rw [ddsLoopAux_fuel master step f 512 _ 0 1 [0] 0 (by omega) (by omega)]

/-! ### DDS planner: MainWindow::setFrequency (MainWindow.cpp:2764) -/

/-- The resize at the head of setFrequency: `DDS_Waveform.resize(256, 0)`
when shorter than 256 entries. -/
def resizeTo256 (wf : List Nat) : List Nat :=
  if wf.length < 256 then wf ++ List.replicate (256 - wf.length) 0 else wf

/-- Nearest-neighbour index of the cycle-stretch resampling:
`round(i * (waveform_size - 1) / double(N - 1))` with `N = 512`. -/
def stretchTableIndex (wfLen i : Nat) : Nat :=
  (cppRound ((i * (wfLen - 1) : ℚ) / 511)).toNat

/-- The 512-entry table written by the low-frequency cycle-stretch loop
(MainWindow.cpp:2781). -/
def stretchTable (wf : List Nat) : List Nat :=
  (List.range 512).map fun i => wf.getD (stretchTableIndex wf.length i) 0

/-- Observable outcome of MainWindow::setFrequency: the branch taken, the
member variables it stores, and the command payload bytes it packs. -/
structure SetFreqResult where
  usedCycleStretch : Bool
  timer_period : ℤ
  no_of_samples : ℤ
  dds_array_length : ℤ
  table : List Nat
  periodHi : ℤ
  periodLo : ℤ
  samplesHi : ℤ
  samplesLo : ℤ
deriving DecidableEq

/-- Outcome of the low-frequency cycle-stretch branch of
MainWindow::setFrequency (MainWindow.cpp:2778-2795): stretch one cycle
over 512 table entries and divide the 32 MHz clock directly (C++ integer
division), clipped to the 16-bit timer. -/
def ddsStretchPlan (freq : Nat) (wf : List Nat) : SetFreqResult :=
  let tpRaw : ℤ := (32 * 1000000 : ℤ) / (freq * 512 : ℤ)
  let tp : ℤ := if tpRaw > 65535 then 65535 else tpRaw
  { usedCycleStretch := true
    timer_period := tp
    no_of_samples := 512
    dds_array_length := 511
    table := stretchTable wf
    periodHi := tp / 256
    periodLo := tp % 256
    samplesHi := 512 / 256
    samplesLo := 512 % 256 }

/-- Outcome of the standard path of MainWindow::setFrequency
(MainWindow.cpp:2797-2825), given the phase step and the table fill
result: realized event-clock frequency `fout = step * fclock / 2^16` with
`fclock = 32 MHz / 32`, truncated sample count `fclock / fout`, corrected
divider `round(32 * fout / freq)` clipped to 65535, the zero-tail repair
of the table at index `cnt - 1`, the 512 sample clip, and the packed
command bytes. -/
def ddsStdPlan (freq step cnt : Nat) (t : List Nat) : SetFreqResult :=
  let fout : ℚ := step * (((32 * 1000000 / 32 : Nat) : ℚ) / 2 ^ 16)
  let samplesRaw : ℤ := ⌊((32 * 1000000 / 32 : Nat) : ℚ) / fout⌋
  let dcRaw : ℤ := cppRound ((32 : ℚ) * (fout / freq))
  let dc : ℤ := if dcRaw > 65535 then 65535 else dcRaw
  let dal : Nat := cnt - 1
  let t2 : List Nat :=
    if t.getD dal 0 = 0 ∧ 0 < dal then t.set dal (t.getD (dal - 1) 0) else t
  let samples : ℤ := if samplesRaw > 512 then 512 else samplesRaw
  { usedCycleStretch := false
    timer_period := dc
    no_of_samples := samples
    dds_array_length := (dal : ℤ)
    table := t2
    periodHi := dc / 256
    periodLo := dc % 256
    samplesHi := samples / 256
    samplesLo := samples % 256 }

/-- Embedding of MainWindow::setFrequency for a requested integer
frequency. Constants as in the source: `timer_clock = 32 MHz`,
`divider = 32`, so the event clock `fclock = 32 * 1000000 / 32 = 1 MHz`.
Frequencies below 1000 Hz take the cycle-stretch path; all others run the
phase-accumulator fill and the divider correction of ddsStdPlan. The
`double` intermediates are modelled as exact rationals; `static_cast<int>`
of a nonnegative value is the floor, `std::round` is cppRound. A `none`
result reflects undefined behavior inside GetCount_GetIndex. -/
def setFrequency (masterWaveform : List Nat) (freq : Nat) : Option SetFreqResult :=
  if freq < 1000 then some (ddsStretchPlan freq (resizeTo256 masterWaveform))
  else
    match GetCount_GetIndex (resizeTo256 masterWaveform) (List.replicate 512 0)
        (get_phase_step freq (32 * 1000000 / 32)) with
    | none => none
    | some (t, cnt) =>
      some (ddsStdPlan freq (get_phase_step freq (32 * 1000000 / 32)) cnt t)

/-- Realized output frequency of a DDS plan, `(32 MHz / timer_period) /
sample_count`, the invariant metric stated in the specification. -/
def realizedFrequency (r : SetFreqResult) : ℚ :=
  ((32000000 : ℚ) / (r.timer_period : ℚ)) / (r.no_of_samples : ℚ)

set_option maxRecDepth 8000 in
/-- Concrete evaluation of the planner at a requested 1000 Hz with any
256-entry master waveform: the strict test `Frequency < 1000` fails, so the
standard path runs, with phase step 128, 512 samples, corrected divider
round(62.5) = 63, and realized frequency 62500/63 Hz. -/
theorem setFrequency_at_1000 (master : List Nat) (hm : master.length = 256) :
    ∃ r, setFrequency master 1000 = some r ∧ r.usedCycleStretch = false ∧
      r.no_of_samples = 512 ∧ r.timer_period = 63 ∧
      realizedFrequency r = 62500 / 63 := by
  have hwf : resizeTo256 master = master := by
    unfold resizeTo256
    rw [if_neg (by omega)]
  have hstep : get_phase_step 1000 (32 * 1000000 / 32) = 128 := by
    simp only [get_phase_step]
    have h : (⌊((1000 : ℕ) : ℚ) * 2 ^ 16 / (((32 * 1000000 / 32 : ℕ) : ℕ) : ℚ)⌋).toNat = 65 := by
      norm_num
      rfl
    rw [h]
    decide
  obtain ⟨t, cnt, hrun, hc1, hc512, _, _, _⟩ :=
    GetCount_GetIndex_spec master (List.replicate 512 0) 128 (by omega)
  refine ⟨ddsStdPlan 1000 128 cnt t, ?_, rfl, ?_, ?_, ?_⟩
  · unfold setFrequency
    rw [if_neg (by omega : ¬(1000 < 1000)), hwf, hstep, hrun]
  · simp only [ddsStdPlan]
    norm_num
  · simp only [ddsStdPlan]
    norm_num [cppRound]
  · simp only [realizedFrequency, ddsStdPlan]
    norm_num [cppRound]

/-! ### Claim C2 -/

/-- Claim C2, corrected. For a requested 1000 Hz frequency with any
256-entry master waveform (the sine master included), the planner does NOT
take the low-frequency cycle-stretch path: the branch test is the strict
`Frequency < 1000`, so 1000 Hz runs the standard phase-accumulator path.
It produces `no_of_samples = 512` and `timer_period = round(32 * fout /
1000) = round(62.5) = 63` (not 62), and the realized output frequency
`(32 MHz / 63) / 512 = 62500/63 ≈ 992.06 Hz` is within 2 percent of 1 kHz. -/
theorem claim_C2_dds_1kHz_plan (master : List Nat) (hm : master.length = 256) :
    ∃ r, setFrequency master 1000 = some r ∧ r.usedCycleStretch = false ∧
      r.no_of_samples = 512 ∧ r.timer_period = 63 ∧
      |realizedFrequency r - 1000| ≤ (2 / 100) * 1000 := by
  obtain ⟨r, h1, h2, h3, h4, h5⟩ := setFrequency_at_1000 master hm
  refine ⟨r, h1, h2, h3, h4, ?_⟩
  rw [h5, abs_le]
  constructor <;> norm_num

/-- Witness for claim C2 at the all-zero 256-entry master waveform. -/
theorem claim_C2_witness :
    (List.replicate 256 (0 : ℕ)).length = 256 ∧
    (∃ r, setFrequency (List.replicate 256 (0 : ℕ)) 1000 = some r ∧
      r.usedCycleStretch = false ∧ r.no_of_samples = 512 ∧ r.timer_period = 63 ∧
      |realizedFrequency r - 1000| ≤ (2 / 100) * 1000) :=
  ⟨by simp, claim_C2_dds_1kHz_plan (List.replicate 256 0) (by simp)⟩

/-- Counterexample to claim C2 as stated: at 1000 Hz the planner takes the
standard path, not the cycle-stretch path, and the stored timer period is
63, not 62. -/
theorem claim_C2_counterexample :
    ∃ r, setFrequency (List.replicate 256 (0 : ℕ)) 1000 = some r ∧
      r.usedCycleStretch ≠ true ∧ r.timer_period ≠ 62 := by
  obtain ⟨r, h1, h2, h3, h4, h5⟩ := setFrequency_at_1000 (List.replicate 256 0) (by simp)
  exact ⟨r, h1, by rw [h2]; simp, by rw [h4]; norm_num⟩

/-! ### Claim C3 -/

/-- Claim C3, corrected. For every x ≥ 1, `nextPowerOf2` (the spec's
`ceil2`) always returns a nonzero power of two, but it is the smallest
power of two STRICTLY greater than x, not the smallest power of two ≥ x:
at any power of two it overshoots by a factor of two. -/
theorem claim_C3_ceil2_next_power (x : Nat) (hx : 1 ≤ x) :
    (∃ k, nextPowerOf2 x = 2 ^ k) ∧ x < nextPowerOf2 x ∧
      (∀ k, x < 2 ^ k → nextPowerOf2 x ≤ 2 ^ k) ∧ nextPowerOf2 x ≠ 0 :=
  ⟨nextPowerOf2_isPow x, lt_nextPowerOf2 x hx,
    fun k hk => nextPowerOf2_min x hx k hk,
    by have := nextPowerOf2_pos x; omega⟩

/-- Witness for claim C3 at x = 5: the result 8 is the least power of two
strictly above 5. -/
theorem claim_C3_witness :
    1 ≤ 5 ∧ ((∃ k, nextPowerOf2 5 = 2 ^ k) ∧ 5 < nextPowerOf2 5 ∧
      (∀ k, 5 < 2 ^ k → nextPowerOf2 5 ≤ 2 ^ k) ∧ nextPowerOf2 5 ≠ 0) :=
  ⟨by norm_num, claim_C3_ceil2_next_power 5 (by norm_num)⟩

/-- Counterexample to claim C3 as stated: at x = 1 the function returns 2,
while the smallest power of two ≥ 1, i.e. `2 ^ ceil(log2 1)`, is 1. -/
theorem claim_C3_counterexample :
    nextPowerOf2 1 = 2 ∧ 2 ^ Nat.clog 2 (max 1 1) = 1 ∧
      nextPowerOf2 1 ≠ 2 ^ Nat.clog 2 (max 1 1) := by
  have hclog : Nat.clog 2 (max 1 1) = 0 := by
    simp [Nat.clog_one_right]
  refine ⟨by decide, by rw [hclog]; norm_num, by rw [hclog]; decide⟩

/-! ### Digital frequency generator: MainWindow::setDigitalFrequency
(MainWindow.cpp:3299) -/

/-- Embedding of MainWindow::setDigitalFrequency: compute
`dig_count = 32 000 000 / dig_freq` and fall through the fixed divider
ladder, halving (or dividing by 8 and 4) while the count exceeds 65535.
Returns `(dig_count, dig_index, dig_divider)`. Integer division is C++
truncating division; for the nonnegative operands reached from
`dig_freq ≥ 1` it coincides with the mathematical division used here. -/
def setDigitalFrequency (dig_freq : ℤ) : ℤ × ℤ × ℤ :=
  let c0 : ℤ := 32 * 1000000 / dig_freq
  if c0 > 65535 then
    let c1 := c0 / 2
    if c1 > 65535 then
      let c2 := c1 / 2
      if c2 > 65535 then
        let c3 := c2 / 2
        if c3 > 65535 then
          let c4 := c3 / 8
          if c4 > 65535 then
            let c5 := c4 / 4
            if c5 > 65535 then (c5 / 4, 6, 1024)
            else (c5, 5, 256)
          else (c4, 4, 64)
        else (c3, 3, 8)
      else (c2, 2, 4)
    else (c1, 1, 2)
  else (c0, 0, 1)

/-- Claim C10, confirmed. For every target digital frequency of at least
1 Hz, the planner yields a count that fits the 16-bit c command, in
[0, 65535], and a divider index in [0, 6]. The hypothesis `1 ≤ f` reflects
the unguarded division `32 000 000 / dig_freq` at the head of the code. -/
theorem claim_C10_digital_planner (f : ℤ) (hf : 1 ≤ f) :
    0 ≤ (setDigitalFrequency f).1 ∧ (setDigitalFrequency f).1 ≤ 65535 ∧
      0 ≤ (setDigitalFrequency f).2.1 ∧ (setDigitalFrequency f).2.1 ≤ 6 := by
  have h0 : 0 ≤ (32 * 1000000 : ℤ) / f := Int.ediv_nonneg (by norm_num) (by omega)
  have h1 : (32 * 1000000 : ℤ) / f ≤ 32000000 := Int.ediv_le_self _ (by norm_num)
  simp only [setDigitalFrequency]
  split_ifs <;> simp only [] <;> omega

/-- Witness for claim C10 at a 100 Hz target (count 320000 needs one
ladder level). -/
theorem claim_C10_witness :
    (1 : ℤ) ≤ 100 ∧ (0 ≤ (setDigitalFrequency 100).1 ∧
      (setDigitalFrequency 100).1 ≤ 65535 ∧
      0 ≤ (setDigitalFrequency 100).2.1 ∧ (setDigitalFrequency 100).2.1 ≤ 6) :=
  ⟨by norm_num, claim_C10_digital_planner 100 (by norm_num)⟩

/-! ### ADC to voltage calibration (MainWindow.cpp:1145) -/

/-- Calibration factor `scaleFactor = 5.0 / 4.8` (MainWindow.cpp:1145). -/
def scaleFactor : ℚ := 5 / 4.8

/-- CH1 sample conversion (MainWindow.cpp:1156): the hard-coded
offset-correction constant `OC1 = 0.0` appears inside and outside the
gain division, the fixed baseline is 4.00 V, and the UI offset slider
value in hundredths of a volt is halved. -/
def convertCh1Sample (adc : Nat) (gain : ℚ) (chOffset : ℤ) : ℚ :=
  let oc1 : ℚ := 0
  let fixedOffset : ℚ := 4.00
  let ch1UIOffset : ℚ := ((chOffset : ℚ) / 100) / 2
  ((((adc : ℚ) * 10 / 128) - 10 + oc1) * scaleFactor / gain) + oc1 + fixedOffset
    + ch1UIOffset - 3.78

/-- CH2 sample conversion (MainWindow.cpp:1170): identical to CH1 except
that no offset-correction constant appears at all. -/
def convertCh2Sample (adc : Nat) (gain : ℚ) (chOffset : ℤ) : ℚ :=
  let fixedOffset : ℚ := 4.00
  let ch2UIOffset : ℚ := ((chOffset : ℚ) / 100) / 2
  ((((adc : ℚ) * 10 / 128) - 10) * scaleFactor / gain) + fixedOffset
    + ch2UIOffset - 3.78

/-- Calibration equation exactly as the specification words it:
`v = ((adc·10/128 − 10 + OC) · 5/4.8 / gain) + OC + 4.0 + ui_offset/200 − 3.78`. -/
def specCalibratedVoltage (adc : Nat) (gain : ℚ) (uiOffset : ℤ) (oc : ℚ) : ℚ :=
  (((adc : ℚ) * 10 / 128 - 10 + oc) * 5 / 4.8 / gain) + oc + 4.0
    + (uiOffset : ℤ) / 200 - 3.78

/-- Claim C4, confirmed. For every ADC byte, every gain step, and every UI
offset, both channel conversions compute exactly the specified calibration
formula with OC = 0 (offset correction is hard-disabled in the code),
identically for CH1 and CH2. -/
theorem claim_C4_calibration (adc : Nat) (hadc : adc ≤ 255) (gain : ℚ)
    (hg : gain = 1 ∨ gain = 2 ∨ gain = 4 ∨ gain = 8 ∨ gain = 16 ∨ gain = 32)
    (ofs : ℤ) :
    convertCh1Sample adc gain ofs = specCalibratedVoltage adc gain ofs 0 ∧
      convertCh2Sample adc gain ofs = specCalibratedVoltage adc gain ofs 0 := by
  unfold convertCh1Sample convertCh2Sample specCalibratedVoltage scaleFactor
  constructor <;> push_cast <;> ring

/-- Witness for claim C4 at adc = 128, gain = 2, offset = 100. -/
theorem claim_C4_witness :
    128 ≤ 255 ∧ ((2 : ℚ) = 1 ∨ (2 : ℚ) = 2 ∨ (2 : ℚ) = 4 ∨ (2 : ℚ) = 8 ∨
      (2 : ℚ) = 16 ∨ (2 : ℚ) = 32) ∧
    (convertCh1Sample 128 2 100 = specCalibratedVoltage 128 2 100 0 ∧
      convertCh2Sample 128 2 100 = specCalibratedVoltage 128 2 100 0) :=
  ⟨by norm_num, by norm_num, claim_C4_calibration 128 (by norm_num) 2 (by norm_num) 100⟩

/-! ### Trigger evaluator: MainWindow::checkTriggerCondition
(MainWindow.cpp:2931) -/

/-- Trigger source selection of the radio buttons. -/
inductive TrigSel where
  | ch1
  | ch2
  | auto
deriving DecidableEq

/-- Channel the evaluator inspects: CH1 for source CH1, CH2 for source
CH2, CH1 by default for auto (MainWindow.cpp:2937). -/
def selectedChannel (src : TrigSel) (ch1Data ch2Data : List ℚ) : List ℚ :=
  match src with
  | .ch1 => ch1Data
  | .ch2 => ch2Data
  | .auto => ch1Data

/-- Maximum of a waveform, 0 for an empty one (the code never takes the
empty branch because it returns early). -/
def listMax : List ℚ → ℚ
  | [] => 0
  | x :: xs => xs.foldl max x

/-- Minimum of a waveform, 0 for an empty one. -/
def listMin : List ℚ → ℚ
  | [] => 0
  | x :: xs => xs.foldl min x

/-- Embedding of MainWindow::checkTriggerCondition: with no data the frame
is not released; otherwise it is released exactly when the peak-to-peak
range of the selected channel exceeds 0.1 V. The trigger level and the
polarity are not consulted. -/
def checkTriggerCondition (src : TrigSel) (ch1Data ch2Data : List ℚ) : Bool :=
  let triggerData := selectedChannel src ch1Data ch2Data
  if triggerData.isEmpty then false
  else decide (listMax triggerData - listMin triggerData > 0.1)

/-- Edge condition as the specification words it: some adjacent pair
(v[i-1], v[i]) with v[i-1] < L ≤ v[i] for a rising edge, or
v[i-1] > L ≥ v[i] for a falling edge. -/
def hasTriggerEdge (rising : Bool) (level : ℚ) (v : List ℚ) : Bool :=
  (v.zip v.tail).any fun p =>
    if rising then decide (p.1 < level ∧ level ≤ p.2)
    else decide (p.1 > level ∧ level ≥ p.2)

/-- Claim C5, corrected. For trigger source CH1 or CH2 the evaluator
releases a frame if and only if the selected channel is non-empty and its
peak-to-peak range exceeds 0.1 V; the configured trigger level and edge
polarity play no role in the decision. -/
theorem claim_C5_trigger_range_heuristic (src : TrigSel) (hsrc : src ≠ .auto)
    (ch1Data ch2Data : List ℚ) :
    checkTriggerCondition src ch1Data ch2Data = true ↔
      (selectedChannel src ch1Data ch2Data ≠ [] ∧
        listMax (selectedChannel src ch1Data ch2Data)
          - listMin (selectedChannel src ch1Data ch2Data) > 1 / 10) := by
  unfold checkTriggerCondition
  by_cases hd : (selectedChannel src ch1Data ch2Data).isEmpty
  · rw [if_pos hd]
    rw [List.isEmpty_iff] at hd
    simp [hd]
  · rw [if_neg hd]
    rw [List.isEmpty_iff] at hd
    simp only [decide_eq_true_eq]
    constructor
    · intro h
      refine ⟨hd, by norm_num at h ⊢; exact h⟩
    · intro h
      norm_num
      exact h.2

/-- Witness for claim C5 at source CH1 with the frame [0 V, 1 V]. -/
theorem claim_C5_witness :
    TrigSel.ch1 ≠ TrigSel.auto ∧
    (checkTriggerCondition .ch1 [0, 1] [] = true ↔
      (selectedChannel .ch1 [0, 1] [] ≠ [] ∧
        listMax (selectedChannel .ch1 [0, 1] [])
          - listMin (selectedChannel .ch1 [0, 1] []) > 1 / 10)) :=
  ⟨by decide, claim_C5_trigger_range_heuristic .ch1 (by decide) [0, 1] []⟩

/-- Counterexample to claim C5 as stated: the frame [0 V, 0.05 V] on CH1
contains a rising pair through the level 0.02 V, yet the evaluator does not
release it, because its peak-to-peak range 0.05 V is below the 0.1 V
heuristic threshold. -/
theorem claim_C5_counterexample :
    checkTriggerCondition .ch1 [0, 1 / 20] [] = false ∧
      hasTriggerEdge true (1 / 50) [0, 1 / 20] = true := by
  constructor
  · unfold checkTriggerCondition selectedChannel
    rw [if_neg (by simp)]
    rw [decide_eq_false_iff_not]
    unfold listMax listMin
    norm_num
  · unfold hasTriggerEdge
    simp only [List.zip, List.zipWith, List.tail, List.any_cons, List.any_nil]
    norm_num

/-! ### Bode sweep analysis: MainWindow::plotBodePlot (MainWindow.cpp:2150) -/

/-- Sliding windows of three consecutive samples. -/
def windowTriples : List ℚ → List (ℚ × ℚ × ℚ)
  | a :: b :: c :: t => (a, b, c) :: windowTriples (b :: c :: t)
  | _ => []

/-- Local maxima of the C++ findLocalExtrema lambda: interior samples
strictly greater than both neighbours (MainWindow.cpp:2212). -/
def localMaxima (data : List ℚ) : List ℚ :=
  (windowTriples data).filterMap fun p =>
    if p.2.1 > p.1 ∧ p.2.1 > p.2.2 then some p.2.1 else none

/-- Local minima: interior samples strictly smaller than both neighbours. -/
def localMinima (data : List ℚ) : List ℚ :=
  (windowTriples data).filterMap fun p =>
    if p.2.1 < p.1 ∧ p.2.1 < p.2.2 then some p.2.1 else none

/-- Mean of a list of extrema, 0 when there are none (MainWindow.cpp:2215). -/
def avgOf (l : List ℚ) : ℚ := if l.isEmpty then 0 else l.sum / l.length

/-- Amplitude of a trimmed waveform: `(avgMax - avgMin) / 2`
(MainWindow.cpp:2220). -/
def ampOf (w : List ℚ) : ℚ := (avgOf (localMaxima w) - avgOf (localMinima w)) / 2

/-- Whether a sweep point is marked invalid: waveform pairs shorter than 21
paired samples are marked directly (MainWindow.cpp:2167); otherwise the
point is invalid when either amplitude of the 20-sample-trimmed waveforms
is at most 1e-9 (MainWindow.cpp:2232). -/
def bodeInvalid (inFull outFull : List ℚ) : Bool :=
  if min inFull.length outFull.length ≤ 20 then true
  else
    decide (ampOf (inFull.drop 20) ≤ 1 / 1000000000 ∨
      ampOf (outFull.drop 20) ≤ 1 / 1000000000)

/-- Magnitude recorded for a sweep point: 0.0 dB for short pairs; otherwise
`20·log10(outAmp/inAmp)` whenever `inAmp > 1e-9`, and 0.0 only when
`inAmp ≤ 1e-9` (MainWindow.cpp:2222) — the C++ guard tests only the input
amplitude. -/
noncomputable def bodeMagnitude (inFull outFull : List ℚ) : ℝ :=
  if min inFull.length outFull.length ≤ 20 then 0
  else
    if (1 / 1000000000 : ℚ) < ampOf (inFull.drop 20) then
      20 * Real.logb 10 ((ampOf (outFull.drop 20) : ℝ) / (ampOf (inFull.drop 20) : ℝ))
    else 0

/-- Parallel invalid flags over the whole sweep. -/
def sweepInvalidFlags (waves : List (List ℚ × List ℚ)) : List Bool :=
  waves.map fun p => bodeInvalid p.1 p.2

/-- Parallel magnitudes over the whole sweep (sweepMagnitudes in the code). -/
noncomputable def sweepMagnitudes (waves : List (List ℚ × List ℚ)) : List ℝ :=
  waves.map fun p => bodeMagnitude p.1 p.2

theorem getD_map_lt {α β : Type} (f : α → β) (l : List α) :
    ∀ (k : Nat), k < l.length → ∀ (d : β) (d0 : α),
      (l.map f).getD k d = f (l.getD k d0) := by
  induction l with
  | nil => intro k hk; simp at hk
  | cons x xs ih =>
    intro k hk d d0
    cases k with
    | zero => simp [List.getD]
    | succ k =>
      simp only [List.map, List.getD, List.getElem?_cons_succ]
      have := ih k (by simpa using Nat.lt_of_succ_lt_succ hk) d d0
      simpa [List.getD] using this

theorem ampOf_nil : ampOf [] = 0 := by
  unfold ampOf avgOf localMaxima localMinima windowTriples
  norm_num

/-- Claim C6, corrected. Over a whole sweep the output lists keep the
sweep length and are computed pointwise. A point is invalid exactly when
one of the trimmed amplitudes is at most 1e-9 (for pairs shorter than 21
samples the trimmed waveform is empty and its amplitude is 0). A point
with input amplitude above 1e-9 records `20·log10(amp_out/amp_in)` even
when it is invalid because of a tiny output amplitude; the recorded
magnitude is 0.0 dB only when the input amplitude is at most 1e-9 or the
pair is short. -/
theorem claim_C6_bode_invalid_and_magnitude (waves : List (List ℚ × List ℚ))
    (k : Nat) (hk : k < waves.length) (inF outF : List ℚ) :
    (sweepMagnitudes waves).length = waves.length ∧
    (sweepInvalidFlags waves).length = waves.length ∧
    (sweepMagnitudes waves).getD k 0 =
      bodeMagnitude (waves.getD k ([], [])).1 (waves.getD k ([], [])).2 ∧
    (sweepInvalidFlags waves).getD k false =
      bodeInvalid (waves.getD k ([], [])).1 (waves.getD k ([], [])).2 ∧
    (bodeInvalid inF outF = true ↔
      (ampOf (inF.drop 20) ≤ 1 / 1000000000 ∨
        ampOf (outF.drop 20) ≤ 1 / 1000000000)) ∧
    (20 < min inF.length outF.length →
      bodeMagnitude inF outF =
        (if (1 / 1000000000 : ℚ) < ampOf (inF.drop 20) then
          (20 : ℝ) * Real.logb 10 ((ampOf (outF.drop 20) : ℝ) / (ampOf (inF.drop 20) : ℝ))
        else 0)) ∧
    (min inF.length outF.length ≤ 20 → bodeMagnitude inF outF = 0) := by
  refine ⟨by simp [sweepMagnitudes], by simp [sweepInvalidFlags],
    getD_map_lt _ waves k hk 0 ([], []),
    getD_map_lt _ waves k hk false ([], []), ?_, ?_, ?_⟩
  · unfold bodeInvalid
    by_cases h : min inF.length outF.length ≤ 20
    · rw [if_pos h]
      simp only [true_iff]
      rcases min_le_iff.mp h with h1 | h1
      · left
        rw [List.drop_eq_nil_of_le h1, ampOf_nil]
        norm_num
      · right
        rw [List.drop_eq_nil_of_le h1, ampOf_nil]
        norm_num
    · rw [if_neg h]
      exact decide_eq_true_iff
  · intro h
    unfold bodeMagnitude
    rw [if_neg (by omega)]
  · intro h
    unfold bodeMagnitude
    rw [if_pos h]

/-- Witness for claim C6: a one-point sweep with clean triangle waveforms
of amplitude 1/2 on both channels, a valid point of magnitude 0 dB. -/
theorem claim_C6_witness :
    (0 : Nat) < 1 ∧
    (letI w : List ℚ × List ℚ :=
        (List.replicate 20 0 ++ [0, 1, 0], List.replicate 20 0 ++ [0, 1, 0])
     (sweepMagnitudes [w]).length = [w].length ∧
     (sweepInvalidFlags [w]).length = [w].length ∧
     (sweepMagnitudes [w]).getD 0 0 =
       bodeMagnitude ([w].getD 0 ([], [])).1 ([w].getD 0 ([], [])).2 ∧
     (sweepInvalidFlags [w]).getD 0 false =
       bodeInvalid ([w].getD 0 ([], [])).1 ([w].getD 0 ([], [])).2 ∧
     (bodeInvalid w.1 w.2 = true ↔
       (ampOf (w.1.drop 20) ≤ 1 / 1000000000 ∨
         ampOf (w.2.drop 20) ≤ 1 / 1000000000)) ∧
     (20 < min w.1.length w.2.length →
       bodeMagnitude w.1 w.2 =
         (if (1 / 1000000000 : ℚ) < ampOf (w.1.drop 20) then
           (20 : ℝ) * Real.logb 10 ((ampOf (w.2.drop 20) : ℝ) / (ampOf (w.1.drop 20) : ℝ))
         else 0)) ∧
     (min w.1.length w.2.length ≤ 20 → bodeMagnitude w.1 w.2 = 0)) :=
  ⟨by norm_num,
    claim_C6_bode_invalid_and_magnitude
      [(List.replicate 20 0 ++ [0, 1, 0], List.replicate 20 0 ++ [0, 1, 0])]
      0 (by simp)
      (List.replicate 20 0 ++ [0, 1, 0]) (List.replicate 20 0 ++ [0, 1, 0])⟩

theorem ampOf_010 : ampOf [0, 1, 0] = 1 / 2 := by
  norm_num [ampOf, avgOf, localMaxima, localMinima, windowTriples,
    List.filterMap_cons, List.filterMap_nil]

theorem ampOf_tiny : ampOf [0, 2 / 10000000000, 0] = 1 / 10000000000 := by
  norm_num [ampOf, avgOf, localMaxima, localMinima, windowTriples,
    List.filterMap_cons, List.filterMap_nil]

theorem drop20_replicate (tail : List ℚ) :
    (List.replicate 20 (0 : ℚ) ++ tail).drop 20 = tail := by
  have h : (List.replicate 20 (0 : ℚ)).length = 20 := by simp
  calc (List.replicate 20 (0 : ℚ) ++ tail).drop 20
      = (List.replicate 20 (0 : ℚ) ++ tail).drop (List.replicate 20 (0 : ℚ)).length := by
        rw [h]
    _ = tail := List.drop_left _ _

/-- Counterexample to claim C6 as stated: a sweep point whose input
amplitude is 1/2 and whose output amplitude is 1e-10 is marked invalid,
yet its recorded magnitude is `20·log10(2e-10)`, a strictly negative
number, not the claimed 0.0 dB. -/
theorem claim_C6_counterexample :
    bodeInvalid (List.replicate 20 0 ++ [0, 1, 0])
        (List.replicate 20 0 ++ [0, 2 / 10000000000, 0]) = true ∧
      bodeMagnitude (List.replicate 20 0 ++ [0, 1, 0])
        (List.replicate 20 0 ++ [0, 2 / 10000000000, 0]) ≠ 0 := by
  have hlen1 : (List.replicate 20 (0 : ℚ) ++ [0, 1, 0]).length = 23 := by simp
  have hlen2 : (List.replicate 20 (0 : ℚ) ++ [0, 2 / 10000000000, 0]).length = 23 := by simp
  have hd1 := drop20_replicate [0, 1, 0]
  have hd2 := drop20_replicate [0, 2 / 10000000000, 0]
  constructor
  · unfold bodeInvalid
    rw [if_neg (by rw [hlen1, hlen2]; norm_num), hd1, hd2, ampOf_010, ampOf_tiny]
    rw [decide_eq_true_iff]
    right
    norm_num
  · unfold bodeMagnitude
    rw [if_neg (by rw [hlen1, hlen2]; norm_num), hd1, hd2, ampOf_010, ampOf_tiny]
    rw [if_pos (by norm_num)]
    have hratio : ((1 / 10000000000 : ℚ) : ℝ) / ((1 / 2 : ℚ) : ℝ) = 2 / 10000000000 := by
      push_cast
      norm_num
    rw [hratio]
    have hneg : Real.logb 10 (2 / 10000000000) < 0 :=
      Real.logb_neg (by norm_num) (by norm_num) (by norm_num)
    have : (20 : ℝ) * Real.logb 10 (2 / 10000000000) < 0 := by linarith
    exact ne_of_lt this

/-! ### Claim C9 -/

/-- Claim C9, corrected. For a phase step in [1, 65536] (the range the
callers produce; the bound keeps the C++ int accumulator far from
overflow) and a master waveform of at least 256 entries (as
MainWindow::setFrequency guarantees by resizing), the table fill
terminates (any fuel from 511 up gives the same result), clamps every
derived index to at most 255, succeeds, keeps the table length, leaves
indices 512 and beyond untouched, and writes only master-waveform values.
For a shorter master waveform the final pad loop can read the master out
of bounds, so the claim fails as stated over all non-empty masters. -/
theorem claim_C9_table_fill_safety (master table : List Nat) (step : Nat)
    (hstep : 1 ≤ step) (hstep2 : step ≤ 65536) (hm : 256 ≤ master.length) :
    (∀ f, 511 ≤ f →
      GetCount_GetIndexFuel f master table step = GetCount_GetIndex master table step) ∧
    (∀ acc, ddsIndexOf acc ≤ 255) ∧
    ∃ t cnt, GetCount_GetIndex master table step = some (t, cnt) ∧
      1 ≤ cnt ∧ cnt ≤ 512 ∧ t.length = table.length ∧
      (∀ (j : Nat), 512 ≤ j → t[j]? = table[j]?) ∧
      (∀ (j w : Nat), t[j]? = some w → table[j]? = some w ∨ w ∈ master) := by
  refine ⟨fun f hf => GetCount_GetIndexFuel_stable master table step f hf,
    ddsIndexOf_le, ?_⟩
  obtain ⟨t, cnt, h1, h2, h3, h4, h5, h6⟩ := GetCount_GetIndex_spec master table step hm
  exact ⟨t, cnt, h1, h2, h3, h4, h6, h5⟩

/-- Witness for claim C9: constant master of 256 entries, fresh 512-entry
table, phase step 1. -/
theorem claim_C9_witness :
    1 ≤ 1 ∧ 1 ≤ 65536 ∧ 256 ≤ (List.replicate 256 (7 : Nat)).length ∧
    ((∀ f, 511 ≤ f →
      GetCount_GetIndexFuel f (List.replicate 256 7) (List.replicate 512 0) 1 =
        GetCount_GetIndex (List.replicate 256 7) (List.replicate 512 0) 1) ∧
    (∀ acc, ddsIndexOf acc ≤ 255) ∧
    ∃ t cnt, GetCount_GetIndex (List.replicate 256 7) (List.replicate 512 0) 1 =
        some (t, cnt) ∧
      1 ≤ cnt ∧ cnt ≤ 512 ∧ t.length = (List.replicate 512 (0 : Nat)).length ∧
      (∀ (j : Nat), 512 ≤ j → t[j]? = (List.replicate 512 (0 : Nat))[j]?) ∧
      (∀ (j w : Nat), t[j]? = some w →
        (List.replicate 512 (0 : Nat))[j]? = some w ∨ w ∈ List.replicate 256 7)) :=
  ⟨by norm_num, by norm_num, by simp,
    claim_C9_table_fill_safety (List.replicate 256 7) (List.replicate 512 0) 1
      (by norm_num) (by norm_num) (by simp)⟩

/-- Run of the fill loop on the one-entry master [7] with phase step 256:
starting from the k-th iteration (accumulator 256k, count k+1, visited
indices 0..k, last index k) the loop halts with count 256 and last index
255, having visited every clamped index. -/
theorem c9LoopRun : ∀ (j : Nat), ∀ (k fuel : Nat) (table : List Nat),
    k + j = 255 → 255 - k ≤ fuel → table.length = 512 →
    ∃ t, ddsLoopAux [7] 256 fuel table (256 * k) (k + 1)
      ((List.range (k + 1)).reverse) k = (t, 256, 255) ∧ t.length = 512 := by
  intro j
  induction j with
  | zero =>
    intro k fuel table hk hf htl
    have hk255 : k = 255 := by omega
    subst hk255
    have hseen : ((List.range 256).reverse).length = 256 := by simp
    cases fuel with
    | zero => exact ⟨table, rfl, htl⟩
    | succ f =>
      refine ⟨table, ?_, htl⟩
      show ddsLoopAux [7] 256 (f + 1) table (256 * 255) (255 + 1)
        ((List.range (255 + 1)).reverse) 255 = (table, 256, 255)
      unfold ddsLoopAux
      rw [if_neg (by rw [hseen]; omega)]
  | succ j ih =>
    intro k fuel table hk hf htl
    have hklt : k ≤ 254 := by omega
    obtain ⟨f, rfl⟩ : ∃ f, fuel = f + 1 := ⟨fuel - 1, by omega⟩
    have hcond : k + 1 < 512 ∧ ((List.range (k + 1)).reverse).length < 256 ∧
        k + 1 < table.length := by
      refine ⟨by omega, by simp; omega, by omega⟩
    have hidx : ddsIndexOf (256 * k + 256) = k + 1 := by
      unfold ddsIndexOf
      have hq : (256 * k + 256) / 256 = k + 1 := by omega
      rw [hq]
      omega
    have hmem : (k + 1) ∈ (List.range (k + 1)).reverse ↔ False := by
      simp
    have hseen2 : ((k + 1) :: (List.range (k + 1)).reverse) =
        (List.range (k + 1 + 1)).reverse := by
      conv_rhs => rw [List.range_succ, List.reverse_append]
      rfl
    have hunf : ddsLoopAux [7] 256 (f + 1) table (256 * k) (k + 1)
        ((List.range (k + 1)).reverse) k =
        ddsLoopAux [7] 256 f
          (table.set (k + 1) (ddsMasterValue [7] (ddsIndexOf (256 * k + 256))))
          (256 * k + 256) (k + 1 + 1)
          (if ddsIndexOf (256 * k + 256) ∈ (List.range (k + 1)).reverse then
            (List.range (k + 1)).reverse
          else ddsIndexOf (256 * k + 256) :: (List.range (k + 1)).reverse)
          (ddsIndexOf (256 * k + 256)) := by
      conv_lhs => rw [ddsLoopAux]
      rw [if_pos hcond]
    rw [hunf, hidx]
    rw [if_neg (by rw [hmem]; exact not_false)]
    rw [hseen2]
    have hacc : 256 * k + 256 = 256 * (k + 1) := by ring
    rw [hacc]
    exact ih (k + 1) f (table.set (k + 1) (ddsMasterValue [7] (k + 1)))
      (by omega) (by omega) (by simpa using htl)

/-- Counterexample to claim C9 as stated: with the non-empty single-entry
master [7] and phase step 256 the loop exits after visiting all 256
clamped indices at count 256, and the pad loop then reads
`DDS_Waveform[255]` out of bounds — the modelled run returns none, so no
table of master values exists. -/
theorem claim_C9_counterexample :
    1 ≤ 256 ∧ ([7] : List Nat) ≠ [] ∧
      GetCount_GetIndex [7] (List.replicate 512 0) 256 = none := by
  refine ⟨by norm_num, by simp, ?_⟩
  unfold GetCount_GetIndex GetCount_GetIndexFuel
  obtain ⟨t, hrun, htl⟩ := c9LoopRun 255 0 512
    ((List.replicate 512 (0 : Nat)).set 0 7) (by omega) (by omega) (by simp)
  have hseen0 : ((List.range (0 + 1)).reverse : List Nat) = [0] := by decide
  rw [hseen0] at hrun
  norm_num at hrun
  show ddsFinish [7]
    (ddsLoopAux [7] 256 512 ((List.replicate 512 0).set 0 7) 0 1 [0] 0) = none
  rw [hrun]
  show (ddsPad [7] t 256 255).map (fun t2 => (t2, 256)) = none
  unfold ddsPad
  rw [if_pos ⟨by omega, by omega⟩]
  rw [if_neg (by simp), if_neg (by norm_num)]
  rfl

/-! ### Serial acquisition state machine (SerialHandler.cpp) -/

/-- SerialHandler::AcquisitionState (SerialHandler.h:33). -/
inductive AcqState where
  | idle
  | waitingForDone
  | waitingForCh1
  | waitingForCh2
  | complete
deriving DecidableEq

/-- Observable SerialHandler state: the acquisition state machine fields,
the two single-shot timers rendered as armed flags, and the protocol
parameters that feed the setup frames. -/
structure SHState where
  acqState : AcqState
  acquisitionInProgress : Bool
  setupActive : Bool
  timeoutArmed : Bool
  setupStep : Nat
  acqMode : Nat
  acqDataLength : Nat
  acqDualChannel : Bool
  bytesNeeded : Nat
  ch1Raw : List Nat
  ch2Raw : List Nat
  trigSource : Nat
  trigPolarity : Nat
  trigLevel : Nat
  sampleRateIdx : Nat
deriving DecidableEq

/-- SerialHandler::resetAcquisitionState (SerialHandler.cpp:378): return
to Idle, restore the defaults, stop the state timeout, and clear the
in-progress flag. The setup timer is not touched. -/
def resetAcquisitionState (s : SHState) : SHState :=
  { s with
      acqState := .idle
      acqDataLength := 200
      acqDualChannel := true
      ch1Raw := []
      ch2Raw := []
      bytesNeeded := 0
      acqMode := 1
      timeoutArmed := false
      acquisitionInProgress := false }

/-- Rejection signal of a reentrant start call (the code logs and ignores
the request). -/
inductive SHError where
  | acquisitionInProgress
deriving DecidableEq

/-- SerialHandler::handleSetupStep (SerialHandler.cpp:132): one timer
tick of the setup sequence. Steps 0 and 1 (the CH1/CH2 offset commands)
are commented out in the source — they advance the step counter but write
nothing. Steps 2-6 write trigger-source, trigger-polarity, trigger-level,
mode and sample-rate frames and re-arm the 50 ms setup timer; step 7
writes the capture command, enters WaitingForDone expecting the 1-byte
acknowledgment, and arms the 5-second state timeout. -/
def handleSetupStep (s : SHState) : SHState × List (List Nat) :=
  match s.setupStep with
  | 0 => ({ s with setupStep := 1, setupActive := true }, [])
  | 1 => ({ s with setupStep := 2, setupActive := true }, [])
  | 2 => ({ s with setupStep := 3, setupActive := true },
      [[0x54, s.trigSource % 256, 0]])
  | 3 => ({ s with setupStep := 4, setupActive := true },
      [[0x50, s.trigPolarity % 256, 0]])
  | 4 => ({ s with setupStep := 5, setupActive := true },
      [[0x4C, s.trigLevel / 256 % 256, s.trigLevel % 256]])
  | 5 => ({ s with setupStep := 6, setupActive := true },
      [[0x46, s.acqMode % 256, 0]])
  | 6 => ({ s with setupStep := 7, setupActive := true },
      [[0x53, s.sampleRateIdx % 256, 0]])
  | 7 => ({ s with
      acqState := .waitingForDone
      bytesNeeded := 1
      timeoutArmed := true
      setupActive := false }, [[0x43, 0, 0]])
  | _ => ({ s with setupActive := false }, [])

/-- SerialHandler::startOscilloscopeAcquisition (SerialHandler.cpp:222):
a request while the in-progress flag is set is ignored (no bytes, no
state change); otherwise the flag is set (line 227) and then — in this
source order — resetAcquisitionState() is called (line 228), whose last
statement clears the flag again, before the mode is recorded and the
setup sequence begins with the immediate step-0 call of
sendSetupSequence. Returns the new state, the bytes written, and the
rejection if any. -/
def startOscilloscopeAcquisition (s : SHState) (mode dataLength : Nat) (dual : Bool) :
    SHState × List (List Nat) × Option SHError :=
  if s.acquisitionInProgress then (s, [], some .acquisitionInProgress)
  else
    let s1 := resetAcquisitionState { s with acquisitionInProgress := true }
    let s2 := { s1 with
        acqMode := mode
        acqDataLength := dataLength
        acqDualChannel := dual
        setupStep := 0 }
    let r := handleSetupStep s2
    (r.1, r.2, none)

/-- SerialHandler::handleReadyRead (SerialHandler.cpp:236) as a single
invocation over the currently buffered bytes (every branch of the C++
loop body returns, so one invocation handles at most one transition).
Returns the new state, the command frames written, and the emitted
oscilloscopeRawDataReady payloads (ch1, ch2, dataLength, dual). -/
def handleReadyRead (s : SHState) (buf : List Nat) :
    SHState × List (List Nat) × List (List Nat × List Nat × Nat × Bool) :=
  match s.acqState with
  | .idle => (s, [], [])
  | .waitingForDone =>
    if buf.length < s.bytesNeeded then (s, [], [])
    else if s.bytesNeeded = 0 then (s, [], [])
    else if s.acqDualChannel then
      ({ s with
          ch1Raw := []
          ch2Raw := []
          bytesNeeded := 200
          acqState := .waitingForCh1
          timeoutArmed := true }, [[0x44, 1, 0]], [])
    else if s.acqMode = 2 then
      ({ s with
          ch1Raw := []
          ch2Raw := []
          bytesNeeded := 400
          acqState := .waitingForCh1
          timeoutArmed := true }, [[0x44, 3, 0]], [])
    else if s.acqMode = 3 then
      ({ s with
          ch1Raw := []
          ch2Raw := []
          bytesNeeded := 400
          acqState := .waitingForCh2
          timeoutArmed := true }, [[0x44, 4, 0]], [])
    else
      ({ s with
          ch1Raw := []
          ch2Raw := []
          timeoutArmed := true }, [], [])
  | .waitingForCh1 =>
    if buf.length < s.bytesNeeded then (s, [], [])
    else if s.bytesNeeded = 0 then (s, [], [])
    else if s.acqDualChannel then
      ({ s with
          ch1Raw := buf.take s.bytesNeeded
          bytesNeeded := 200
          acqState := .waitingForCh2
          timeoutArmed := true }, [[0x44, 2, 0]], [])
    else if s.acqMode = 2 then
      (resetAcquisitionState s, [],
        [(buf.take s.bytesNeeded, [], s.acqDataLength, false)])
    else
      ({ s with ch1Raw := buf.take s.bytesNeeded }, [], [])
  | .waitingForCh2 =>
    if buf.length < s.bytesNeeded then (s, [], [])
    else if s.bytesNeeded = 0 then (s, [], [])
    else
      (resetAcquisitionState s, [],
        if s.acqDualChannel then
          [(s.ch1Raw, buf.take s.bytesNeeded, s.acqDataLength, true)]
        else if s.acqMode = 3 then
          [([], buf.take s.bytesNeeded, s.acqDataLength, false)]
        else [])
  | .complete => (s, [], [])

/-- Expiry of the 5-second state timeout: clear buffers and reset. -/
def timeoutFire (s : SHState) : SHState := resetAcquisitionState s

/-- SerialHandler::setProtocolParams (SerialHandler.cpp:368), restricted
to the parameters the state machine consumes. -/
def setProtocolParams (s : SHState) (trigLvl trigSrc trigPol srIdx : Nat) : SHState :=
  { s with
      trigLevel := trigLvl
      trigSource := trigSrc
      trigPolarity := trigPol
      sampleRateIdx := srIdx }

/-- Freshly constructed handler (field initializers of SerialHandler.h)
with arbitrary protocol parameters. -/
def initSHState (trigSrc trigPol trigLvl srIdx : Nat) : SHState :=
  { acqState := .idle
    acquisitionInProgress := false
    setupActive := false
    timeoutArmed := false
    setupStep := 0
    acqMode := 1
    acqDataLength := 200
    acqDualChannel := true
    bytesNeeded := 0
    ch1Raw := []
    ch2Raw := []
    trigSource := trigSrc
    trigPolarity := trigPol
    trigLevel := trigLvl
    sampleRateIdx := srIdx }

/-- States the handler can actually be in: produced from a fresh handler
by parameter updates, start calls, setup-timer ticks (when pending),
readyRead deliveries, and state-timeout expiries (when armed). -/
inductive Reachable : SHState → Prop where
  | init (trigSrc trigPol trigLvl srIdx : Nat) :
      Reachable (initSHState trigSrc trigPol trigLvl srIdx)
  | params {s : SHState} (a b c d : Nat) (h : Reachable s) :
      Reachable (setProtocolParams s a b c d)
  | start {s : SHState} (mode dataLength : Nat) (dual : Bool) (h : Reachable s) :
      Reachable (startOscilloscopeAcquisition s mode dataLength dual).1
  | setup {s : SHState} (h : Reachable s) (ha : s.setupActive = true) :
      Reachable (handleSetupStep s).1
  | read {s : SHState} (buf : List Nat) (h : Reachable s) :
      Reachable (handleReadyRead s buf).1
  | timeout {s : SHState} (h : Reachable s) (ht : s.timeoutArmed = true) :
      Reachable (timeoutFire s)

/-- Machine invariant: the in-progress flag is FALSE in every reachable
state. The only assignment of true (SerialHandler.cpp:227) is followed
immediately by resetAcquisitionState() (line 228), whose last statement
(line 388) clears the flag again, and every other transition either
leaves the flag alone or resets it — so the reentrancy guard at line 223
never fires. -/
def SHInv (s : SHState) : Prop :=
  s.acquisitionInProgress = false

theorem reachable_inv {s0 : SHState} (h : Reachable s0) : SHInv s0 := by
  induction h with
  | init a b c d =>
    simp [SHInv, initSHState]
  | @params s a b c d h ih =>
    simpa [SHInv, setProtocolParams] using ih
  | @start s mode dataLength dual h ih =>
    simp only [SHInv] at ih ⊢
    simp [startOscilloscopeAcquisition, ih, handleSetupStep, resetAcquisitionState]
  | @setup s h ha ih =>
    simp only [SHInv] at ih ⊢
    rcases hstep : s.setupStep with _ | _ | _ | _ | _ | _ | _ | _ | n <;>
      simp [handleSetupStep, hstep, ih]
  | @read s buf h ih =>
    simp only [SHInv] at ih ⊢
    rcases hst : s.acqState with _ | _ | _ | _ | _ <;>
      simp only [handleReadyRead, hst] <;>
      first
      | (split_ifs <;> simp [resetAcquisitionState, ih])
      | simp [resetAcquisitionState, ih]
  | @timeout s h ht ih =>
    simp [SHInv, timeoutFire, resetAcquisitionState]

/-- One setup-timer tick, state part. -/
def shSetupTick (s : SHState) : SHState := (handleSetupStep s).1

/-- A concrete armed state: start accepted from a fresh handler and all
seven setup ticks delivered, leaving the machine in WaitingForDone. -/
def armedSHState : SHState :=
  shSetupTick (shSetupTick (shSetupTick (shSetupTick (shSetupTick (shSetupTick
    (shSetupTick ((startOscilloscopeAcquisition (initSHState 1 0 512 4) 1 200 true).1)))))))

theorem armedSHState_reachable : Reachable armedSHState := by
  have h0 : Reachable (initSHState 1 0 512 4) := Reachable.init 1 0 512 4
  have h1 : Reachable ((startOscilloscopeAcquisition (initSHState 1 0 512 4) 1 200 true).1) :=
    Reachable.start 1 200 true h0
  have h2 := Reachable.setup h1 (by decide)
  have h3 := Reachable.setup h2 (by decide)
  have h4 := Reachable.setup h3 (by decide)
  have h5 := Reachable.setup h4 (by decide)
  have h6 := Reachable.setup h5 (by decide)
  have h7 := Reachable.setup h6 (by decide)
  have h8 := Reachable.setup h7 (by decide)
  exact h8

/-! ### Claim C8 -/

/-- Claim C8, code bug. The source sets acquisitionInProgress = true
(SerialHandler.cpp:227) and immediately calls resetAcquisitionState(),
whose last statement (line 388) clears the flag again; nothing else ever
sets it, so the guard at line 223 is dead code. In the reachable
WaitingForDone state armedSHState — an acquisition in flight awaiting
the capture acknowledgment — the flag is false, and a second start call
is ACCEPTED: no AcquisitionInProgress rejection is produced, the call
does not leave the state unchanged, and the in-flight acquisition is
discarded (back to Idle, timeout disarmed) while a fresh setup sequence
is begun — contradicting the claimed reject-and-ignore behavior. -/
theorem claim_C8_reentrant_start_accepted :
    Reachable armedSHState ∧
    armedSHState.acqState = AcqState.waitingForDone ∧
    armedSHState.acquisitionInProgress = false ∧
    startOscilloscopeAcquisition armedSHState 1 200 true ≠
      (armedSHState, [], some SHError.acquisitionInProgress) ∧
    (startOscilloscopeAcquisition armedSHState 1 200 true).2.2 = none ∧
    (startOscilloscopeAcquisition armedSHState 1 200 true).1.acqState = AcqState.idle ∧
    (startOscilloscopeAcquisition armedSHState 1 200 true).1.timeoutArmed = false ∧
    (startOscilloscopeAcquisition armedSHState 1 200 true).1.setupActive = true :=
  ⟨armedSHState_reachable, by decide, by decide, by decide, by decide, by decide,
    by decide, by decide⟩

/-! ### Claim C7 -/

/-- Run the pending setup ticks to completion (fuel-bounded; the chain is
at most 8 ticks long), collecting every frame written. -/
def runSetupAux : Nat → SHState → SHState × List (List Nat)
  | 0, s => (s, [])
  | f + 1, s =>
    if s.setupActive then
      (((runSetupAux f (handleSetupStep s).1)).1,
        (handleSetupStep s).2 ++ ((runSetupAux f (handleSetupStep s).1)).2)
    else (s, [])

/-- The accepted start call of the C7 scenario: fresh handler, trigger
source 1, polarity 0, level 512, sample-rate index 4, dual capture. -/
def c7Start : SHState × List (List Nat) × Option SHError :=
  startOscilloscopeAcquisition (initSHState 1 0 512 4) 1 200 true

/-- Claim C7, code bug. An accepted start emits only FIVE setup frames —
trigger-source (T), trigger-polarity (P), trigger-level (L), mode (F),
sample-rate (S) — because the offset-CH1 and offset-CH2 steps are
commented out in the source ("TEMPORARILY DISABLED TO TEST",
SerialHandler.cpp:135-154) and write nothing; the capture command (C)
then follows and the machine arms the 5-second timeout in
WaitingForDone. No frame with opcode 0x4F or 0x6F is ever written, so
the claimed seven-frame sequence does not occur. -/
theorem claim_C7_setup_frames :
    c7Start.2.1 = [] ∧
    (runSetupAux 9 c7Start.1).2 =
      [[0x54, 1, 0], [0x50, 0, 0], [0x4C, 2, 0], [0x46, 1, 0], [0x53, 4, 0],
        [0x43, 0, 0]] ∧
    ((runSetupAux 9 c7Start.1).2.filter
      fun fr => fr.headD 0 = 0x4F || fr.headD 0 = 0x6F) = [] ∧
    (runSetupAux 9 c7Start.1).1.acqState = AcqState.waitingForDone ∧
    (runSetupAux 9 c7Start.1).1.bytesNeeded = 1 ∧
    (runSetupAux 9 c7Start.1).1.timeoutArmed = true := by
  refine ⟨by decide, by decide, by decide, by decide, by decide, by decide⟩

/-! ### Claim C1 -/

/-- Claim C1, corrected. After the capture acknowledgment the read
command is determined by the mode, but with the D payloads of the
CH1-only read and the dual-mode second read swapped relative to the
claim: dual capture sends D,1,0 and expects 200 bytes; CH1-only sends
D,3,0 (not D,2,0) and expects 400 bytes; CH2-only sends D,4,0 and
expects 400 bytes; and in dual mode, once the 200 CH1 bytes are in,
D,2,0 (not D,3,0) is sent with 200 further bytes expected for CH2. -/
theorem claim_C1_read_commands :
    (∀ (s : SHState) (buf : List Nat), s.acqState = .waitingForDone →
      s.bytesNeeded = 1 → 1 ≤ buf.length → s.acqDualChannel = true →
      handleReadyRead s buf =
        ({ s with
            ch1Raw := []
            ch2Raw := []
            bytesNeeded := 200
            acqState := .waitingForCh1
            timeoutArmed := true }, [[0x44, 1, 0]], [])) ∧
    (∀ (s : SHState) (buf : List Nat), s.acqState = .waitingForDone →
      s.bytesNeeded = 1 → 1 ≤ buf.length → s.acqDualChannel = false →
      s.acqMode = 2 →
      handleReadyRead s buf =
        ({ s with
            ch1Raw := []
            ch2Raw := []
            bytesNeeded := 400
            acqState := .waitingForCh1
            timeoutArmed := true }, [[0x44, 3, 0]], [])) ∧
    (∀ (s : SHState) (buf : List Nat), s.acqState = .waitingForDone →
      s.bytesNeeded = 1 → 1 ≤ buf.length → s.acqDualChannel = false →
      s.acqMode = 3 →
      handleReadyRead s buf =
        ({ s with
            ch1Raw := []
            ch2Raw := []
            bytesNeeded := 400
            acqState := .waitingForCh2
            timeoutArmed := true }, [[0x44, 4, 0]], [])) ∧
    (∀ (s : SHState) (buf : List Nat), s.acqState = .waitingForCh1 →
      0 < s.bytesNeeded → s.bytesNeeded ≤ buf.length → s.acqDualChannel = true →
      handleReadyRead s buf =
        ({ s with
            ch1Raw := buf.take s.bytesNeeded
            bytesNeeded := 200
            acqState := .waitingForCh2
            timeoutArmed := true }, [[0x44, 2, 0]], [])) := by
  refine ⟨?_, ?_, ?_, ?_⟩
  · intro s buf h1 h2 h3 h4
    simp only [handleReadyRead, h1, h2, h4]
    simp
    intro hc
    rw [hc] at h3
    simp at h3
  · intro s buf h1 h2 h3 h4 h5
    simp only [handleReadyRead, h1, h2, h4, h5]
    simp
    intro hc
    rw [hc] at h3
    simp at h3
  · intro s buf h1 h2 h3 h4 h5
    simp only [handleReadyRead, h1, h2, h4, h5]
    simp
    intro hc
    rw [hc] at h3
    simp at h3
  · intro s buf h1 h2 h3 h4
    simp only [handleReadyRead, h1, h4]
    rw [if_neg (by omega), if_neg (by omega)]
    simp

/-- Witness for claim C1: the dual-mode acknowledgment step at the
concrete armed state. -/
theorem claim_C1_witness :
    armedSHState.acqState = .waitingForDone ∧ armedSHState.bytesNeeded = 1 ∧
    1 ≤ ([6] : List Nat).length ∧ armedSHState.acqDualChannel = true ∧
    handleReadyRead armedSHState [6] =
      ({ armedSHState with
          ch1Raw := []
          ch2Raw := []
          bytesNeeded := 200
          acqState := .waitingForCh1
          timeoutArmed := true }, [[0x44, 1, 0]], []) :=
  ⟨by decide, by decide, by decide, by decide,
    claim_C1_read_commands.1 armedSHState [6] (by decide) (by decide)
      (by decide) (by decide)⟩

/-- The WaitingForDone state of a CH1-only acquisition (mode 2, single
channel), and the WaitingForCh1 state of a dual acquisition. -/
def c1StateCh1Only : SHState :=
  { initSHState 0 0 0 3 with
      acqState := .waitingForDone
      acquisitionInProgress := true
      bytesNeeded := 1
      acqDualChannel := false
      acqMode := 2 }

def c1StateDualCh1 : SHState :=
  { initSHState 0 0 0 3 with
      acqState := .waitingForCh1
      acquisitionInProgress := true
      bytesNeeded := 200
      acqDualChannel := true
      acqMode := 1 }

/-- Counterexample to claim C1 as stated: after the acknowledgment, a
CH1-only acquisition sends D,3,0 — not the claimed D,2,0 — and the dual
acquisition requests CH2 with D,2,0 — not the claimed D,3,0. -/
theorem claim_C1_counterexample :
    (handleReadyRead c1StateCh1Only [6]).2.1 = [[0x44, 3, 0]] ∧
    (handleReadyRead c1StateCh1Only [6]).2.1 ≠ [[0x44, 2, 0]] ∧
    (handleReadyRead c1StateDualCh1 (List.replicate 200 128)).2.1 = [[0x44, 2, 0]] ∧
    (handleReadyRead c1StateDualCh1 (List.replicate 200 128)).2.1 ≠ [[0x44, 3, 0]] := by
  refine ⟨by decide, by decide, by decide, by decide⟩

end Scope
